import Mathlib

/-!
Verification of the configuration resolver and auth-rule compiler of
`flower/command.py` (functions `apply_env_options`, `apply_options`,
`extract_settings` and their helpers), as a shallow embedding in Lean.

Modelling conventions:

* The tornado global option store (`tornado.options.options`) is modelled as a
  total map `Store := String → String` from canonical option names to raw
  string values; `setattr(options, name, value)` is `setOpt`.  Per-option type
  coercion (`option.type(value)`, `option.multiple`) is orthogonal to every
  property proved here and values are therefore kept as the raw strings.
* The external tornado parsers `parse_command_line` and `parse_config_file`
  (external collaborators, not part of this repository) are modelled by the
  sequence of option writes they perform: each one sets exactly the options
  supplied by its source, in source order, leaving all others untouched.
* Python strings are `String`, or `List Char` where character-level structure
  matters; Python truthiness of an option string (`if options.auth:`) is
  `≠ ""`, which agrees with the truthiness test the source performs.
* `re.compile` results are modelled by the regular expression they denote:
  the verbatim user pattern of `--auth-regex` is kept as its source string,
  and the pattern constructed by the wildcard branch of `extract_settings`
  is given its denotation as a `RegularExpression Char` from Mathlib, with
  the `\A`/`\Z` anchors captured by whole-word match semantics and
  `re.escape(domain)` captured by a literal regular expression.
-/

namespace Flower

/-- The mutable tornado option store: canonical option name ↦ current value. -/
abbrev Store := String → String

/-- `setattr(options, name, value)`: one write into the option store. -/
def setOpt (st : Store) (k v : String) : Store :=
  fun n => if n = k then v else st n

/-- Apply a list of option writes in order (later writes win). -/
def applyAll (st : Store) (ws : List (String × String)) : Store :=
  ws.foldl (fun s kv => setOpt s kv.1 kv.2) st

/-- The value of the last write to `k` in a write list, if any. -/
def lastVal : List (String × String) → String → Option String
  | [], _ => none
  | kv :: rest, k =>
    match lastVal rest k with
    | some v => some v
    | none => if kv.1 = k then some kv.2 else none

/-- `is_flower_envvar` (command.py line 180): an environment variable is
recognised when its name starts with the `FLOWER_` prefix and the remainder,
lower-cased, names a known default option.  The default-option catalogue lives
in `flower/options.py` and is passed in as `recognized`. -/
def is_flower_envvar (recognized : List String) (name : String) : Bool :=
  "FLOWER_".isPrefixOf name && recognized.contains ((name.drop 7).toLower)

/-- The option writes performed by `apply_env_options` (command.py line 59):
each recognised `FLOWER_…` variable, in environment order, contributes one
write of its value to the prefix-stripped lower-cased option name. -/
def env_writes (environ : List (String × String)) (recognized : List String) :
    List (String × String) :=
  (environ.filter (fun kv => is_flower_envvar recognized kv.1)).map
    (fun kv => ((kv.1.drop 7).toLower, kv.2))

/-- `apply_env_options` (command.py lines 59-73): apply options passed through
environment variables. -/
def apply_env_options (st : Store) (environ : List (String × String))
    (recognized : List String) : Store :=
  applyAll st (env_writes environ recognized)

/-- `os.path.basename`: the final path component, i.e. everything after the
last `/` (the whole string when there is no `/`). -/
def basename (p : String) : String :=
  (p.data.foldl (fun acc c => if c = '/' then [] else acc ++ [c]) []).asString

/-- Modelled from the spec: the built-in default configuration filename.  It is
defined in the repository's options module (`flower/options.py`), which is not
part of the sources here; the spec describes it as "a fixed well-known
filename".  Its exact text is irrelevant to every theorem below. -/
def DEFAULT_CONFIG_FILE : String := "flowerconfig.py"

/-- `apply_options` (command.py lines 76-86): apply options passed through the
command line and the configuration file.  `cli` is the write list of the
(already `is_flower_option`-filtered) argument vector, `file` the write list of
the configuration file, and `fileExists` records whether
`parse_config_file(os.path.abspath(options.conf))` finds the file (its
`IOError` is the only failure modelled).  The source parses the command line,
then the config file, then the command line again; on `IOError` it re-raises
exactly when the basename of the resolved `conf` option differs from
`DEFAULT_CONFIG_FILE`. -/
def apply_options (st : Store) (cli file : List (String × String))
    (fileExists : Bool) : Except Unit Store :=
  let st1 := applyAll st cli
  if fileExists then
    .ok (applyAll (applyAll st1 file) cli)
  else if basename (st1 "conf") = DEFAULT_CONFIG_FILE then
    .ok st1
  else
    .error ()

/-- The resolution pipeline as run by the `flower` command (command.py lines
36-37): `apply_env_options()` followed by `apply_options(...)`. -/
def resolveOptions (d : Store) (environ : List (String × String))
    (recognized : List String) (cli file : List (String × String))
    (fileExists : Bool) : Except Unit Store :=
  apply_options (apply_env_options d environ recognized) cli file fileExists

/-! ### String helpers embedding the Python primitives used by
`extract_settings` -/

/-- Python `s.split('|')` at character level: split on every separator,
keeping empty pieces; `"".split(sep)` is `[""]`. -/
def splitOnChar (sep : Char) : List Char → List (List Char)
  | [] => [[]]
  | c :: rest =>
    let r := splitOnChar sep rest
    if c = sep then [] :: r
    else
      match r with
      | [] => [[c]]
      | h :: t => (c :: h) :: t

/-- Python `'.*' in s`: the two-character substring test. -/
def containsDotStar : List Char → Bool
  | [] => false
  | [_] => false
  | c1 :: c2 :: rest => (c1 = '.' && c2 = '*') || containsDotStar (c2 :: rest)

/-- Python `s.count('.*')`: non-overlapping occurrence count, scanning left to
right and skipping past each match. -/
def countDotStar : List Char → Nat
  | [] => 0
  | [_] => 0
  | c1 :: c2 :: rest =>
    if c1 = '.' then
      if c2 = '*' then countDotStar rest + 1
      else countDotStar (c2 :: rest)
    else countDotStar (c2 :: rest)

/-! ### Regular expressions (the external `re` facility) -/

/-- The email local-part character class of command.py line 153:
`[A-Za-z0-9!#$%&'*+/=?^_`{|}~.\-]`, as the list of characters it contains.
The four characters apostrophe (39), backtick (96) and braces (123, 125) are
spelled via their code points. -/
def allowed_wildcard_chars : List Char :=
  "ABCDEFGHIJKLMNOPQRSTUVWXYZabcdefghijklmnopqrstuvwxyz0123456789".data ++
    ['!', '#', '$', '%', '&', Char.ofNat 39, '*', '+', '/', '=', '?', '^',
      '_', Char.ofNat 96, Char.ofNat 123, '|', Char.ofNat 125, '~', '.', '-']

/-- A character class `[c₁c₂…]`: the sum of the single-character regexes. -/
def charClass : List Char → RegularExpression Char
  | [] => 0
  | c :: rest => RegularExpression.char c + charClass rest

/-- A literal regex matching exactly the given word; this is the denotation of
`re.escape(d)` for the domain `d`. -/
def literalRE : List Char → RegularExpression Char
  | [] => 1
  | c :: rest => RegularExpression.char c * literalRE rest

/-- The regex postfix `+` (one or more repetitions). -/
def onePlus (r : RegularExpression Char) : RegularExpression Char :=
  r * r.star

/-- The pattern compiled at command.py line 155:
`re.compile(r'\A' + allowed_wildcard_class + '@' + re.escape(domain) + r'\Z')`,
i.e. one-or-more characters of the class, then `@`, then the literal domain,
anchored at both ends (anchoring is captured by whole-word match semantics). -/
def wildcardRE (domain : List Char) : RegularExpression Char :=
  onePlus (charClass allowed_wildcard_chars) *
    (RegularExpression.char '@' * literalRE domain)

/-! ### `extract_settings` -/

/-- The option values `extract_settings` reads.  An unset option is the empty
string, matching the Python truthiness tests the source performs
(`if options.auth:` and friends). -/
structure Options where
  debug : Bool := false
  cookie_secret : String := ""
  auth : String := ""
  auth_regex : String := ""
  oauth2_key : String := ""
  oauth2_secret : String := ""
  oauth2_redirect_uri : String := ""
deriving DecidableEq

/-- The three environment variables read by the OAuth fallback at command.py
lines 161-165; `none` models an absent variable (`os.environ.get` → `None`). -/
structure OAuthEnv where
  flower_oauth2_key : Option String := none
  flower_oauth2_secret : Option String := none
  flower_oauth2_redirect_uri : Option String := none
deriving DecidableEq

/-- The `settings['oauth']` dict assembled at command.py lines 161-165. -/
structure OAuthSettings where
  key : Option String
  secret : Option String
  redirect_uri : Option String
deriving DecidableEq

/-- A compiled `settings['auth_regex']` pattern: either the user's
`--auth-regex` compiled verbatim (kept as its source string), or the regex
constructed by the wildcard branch. -/
inductive AuthPattern where
  | userRegex (src : String)
  | wildcard (r : RegularExpression Char)

/-- The settings keys written by `extract_settings`.  It starts from the
imported `settings` dict, in which none of these keys are present.  The
`url_prefix` and TLS blocks (lines 122-124 and 167-171) only touch further,
unrelated keys through helpers outside these sources and are not modelled. -/
structure Settings where
  debug : Bool := false
  cookie_secret : Option String := none
  auth_regex : Option AuthPattern := none
  auth_email_list : Option (List (List Char)) := none
  oauth : Option OAuthSettings := none

/-- The `settings['oauth']` assembly of command.py lines 161-165: each field
prefers the explicit option value when truthy and otherwise falls back to the
corresponding `FLOWER_OAUTH2_…` environment variable, read right there. -/
def mkOAuth (o : Options) (e : OAuthEnv) : OAuthSettings :=
  { key := if o.oauth2_key ≠ "" then some o.oauth2_key else e.flower_oauth2_key
    secret :=
      if o.oauth2_secret ≠ "" then some o.oauth2_secret
      else e.flower_oauth2_secret
    redirect_uri :=
      if o.oauth2_redirect_uri ≠ "" then some o.oauth2_redirect_uri
      else e.flower_oauth2_redirect_uri }

/-- `extract_settings` (command.py lines 116-165), restricted to the keys of
`Settings`.  A raised `ValueError` is `.error` with the source's message.  The
`settings['oauth']` assignment runs once after whichever auth branch succeeded,
so it appears in each successful auth branch here. -/
def extract_settings (o : Options) (e : OAuthEnv) : Except String Settings :=
  let base : Settings :=
    { debug := o.debug
      cookie_secret := if o.cookie_secret ≠ "" then some o.cookie_secret else none }
  if o.auth ≠ "" then
    -- The user has provided their own full regex
    if o.auth_regex ≠ "" then
      .ok { base with
              auth_regex := some (.userRegex o.auth_regex)
              oauth := some (mkOAuth o e) }
    -- List of emails to allow, without any regex check
    else if o.auth.data.contains '|' then
      if containsDotStar o.auth.data then
        .error "--auth options only allows wildcard or pipe, not both"
      else
        .ok { base with
                auth_email_list := some (splitOnChar '|' o.auth.data)
                oauth := some (mkOAuth o e) }
    -- Wildcard (any user at a given domain)
    else if containsDotStar o.auth.data then
      if o.auth.data.contains '|' then
        .error "--auth option only allows wildcard or pipe, not both"
      else if countDotStar o.auth.data ≠ 1 then
        .error "--auth option only allows exactly one wildcard, use --auth-regex instead"
      else if o.auth.data.take 3 ≠ ['.', '*', '@'] then
        .error "--auth with wildcard must start with the wildcard, exactly prior to the @domain.com"
      else
        .ok { base with
                auth_regex := some (.wildcard (wildcardRE (o.auth.data.drop 3)))
                oauth := some (mkOAuth o e) }
    -- Otherwise, assume the user provided exactly one valid email
    else
      .ok { base with
              auth_email_list := some [o.auth.data]
              oauth := some (mkOAuth o e) }
  else
    .ok base

/-! ### Helper lemmas -/

theorem countDotStar_eq_zero (l : List Char) (h : containsDotStar l = false) :
    countDotStar l = 0 := by
  induction l using countDotStar.induct with
  | case1 => rfl
  | case2 c => rfl
  | case3 rest ih => simp [containsDotStar] at h
  | case4 c2 rest hne ih =>
    simp [containsDotStar] at h
    simp [countDotStar, hne]
    exact ih (by simp [containsDotStar, h.2])
  | case5 c1 c2 rest hne ih =>
    simp [containsDotStar] at h
    simp [countDotStar, hne]
    exact ih (by simp [containsDotStar, h.2])

theorem containsDotStar_of_count (l : List Char) (h : countDotStar l ≠ 0) :
    containsDotStar l = true := by
  by_contra hc
  exact h (countDotStar_eq_zero l (by simpa using hc))

theorem countDotStar_pos (l : List Char) (h : containsDotStar l = true) :
    1 ≤ countDotStar l := by
  induction l using countDotStar.induct with
  | case1 => simp [containsDotStar] at h
  | case2 c => simp [containsDotStar] at h
  | case3 rest ih => simp [countDotStar]
  | case4 c2 rest hne ih =>
    simp [containsDotStar, hne] at h
    simp [countDotStar, hne]
    exact ih (by simp [containsDotStar, h])
  | case5 c1 c2 rest hne ih =>
    simp [containsDotStar, hne] at h
    simp [countDotStar, hne]
    exact ih (by simp [containsDotStar, h])

theorem splitOnChar_no_sep (sep : Char) (l : List Char)
    (h : sep ∉ l) : splitOnChar sep l = [l] := by
  induction l with
  | nil => rfl
  | cons c rest ih =>
    simp only [List.mem_cons, not_or] at h
    have hcs : ¬c = sep := fun hh => h.1 hh.symm
    simp [splitOnChar, ih h.2, hcs]

/-- Shared helper: whenever `auth` is set and `extract_settings` succeeds, the
OAuth triple of lines 161-165 is stored. -/
theorem extract_settings_oauth (o : Options) (e : OAuthEnv) (s : Settings)
    (ha : o.auth ≠ "") (h : extract_settings o e = .ok s) :
    s.oauth = some (mkOAuth o e) := by
  by_cases hr : o.auth_regex = "" <;>
    by_cases hp : '|' ∈ o.auth.data <;>
    by_cases hw : containsDotStar o.auth.data = true <;>
    by_cases hc : countDotStar o.auth.data = 1 <;>
    by_cases ht : o.auth.data.take 3 = ['.', '*', '@'] <;>
    simp [extract_settings, ha, hr, hp, hw, hc, ht] at h <;>
    subst h <;> rfl

/-- The language of a character class: exactly the one-character words over the
class. -/
theorem charClass_matches (cs : List Char) (x : List Char) :
    x ∈ (charClass cs).matches' ↔ ∃ c ∈ cs, x = [c] := by
  induction cs with
  | nil =>
    simp only [charClass, RegularExpression.matches'_zero]
    simp
  | cons c rest ih =>
    simp only [charClass, RegularExpression.matches'_add, Language.mem_add, ih,
      RegularExpression.matches'_char, Set.mem_singleton_iff]
    constructor
    · rintro (hx | ⟨d, hd, hx⟩)
      · exact ⟨c, List.mem_cons_self c rest, hx⟩
      · exact ⟨d, List.mem_cons_of_mem c hd, hx⟩
    · rintro ⟨d, hd, hx⟩
      rcases List.mem_cons.mp hd with h | h
      · exact Or.inl (h ▸ hx)
      · exact Or.inr ⟨d, h, hx⟩

/-- The language of a literal regex: exactly the literal word. -/
theorem literalRE_matches (d : List Char) (x : List Char) :
    x ∈ (literalRE d).matches' ↔ x = d := by
  induction d generalizing x with
  | nil =>
    simp only [literalRE, RegularExpression.matches'_epsilon, Language.mem_one]
  | cons c rest ih =>
    simp only [literalRE, RegularExpression.matches'_mul, Language.mem_mul,
      RegularExpression.matches'_char, Set.mem_singleton_iff, ih]
    constructor
    · rintro ⟨a, ha, b, hb, hx⟩
      subst ha; subst hb; exact hx.symm
    · rintro rfl
      exact ⟨[c], rfl, rest, rfl, rfl⟩

/-- The language of the starred character class: all words over the class. -/
theorem charClass_star_matches (cs : List Char) (x : List Char) :
    x ∈ (charClass cs).star.matches' ↔ ∀ c ∈ x, c ∈ cs := by
  rw [RegularExpression.matches'_star, Language.mem_kstar]
  constructor
  · rintro ⟨L, rfl, hL⟩ c hc
    obtain ⟨y, hy, hcy⟩ := List.mem_flatten.mp hc
    obtain ⟨d, hd, rfl⟩ := (charClass_matches cs y).mp (hL y hy)
    rcases List.mem_singleton.mp hcy with rfl
    exact hd
  · intro hall
    induction x with
    | nil => exact ⟨[], rfl, by simp⟩
    | cons c rest ih =>
      obtain ⟨L, hL, hmem⟩ := ih (fun d hd => hall d (List.mem_cons_of_mem c hd))
      refine ⟨[c] :: L, by simp [hL], ?_⟩
      intro y hy
      rcases List.mem_cons.mp hy with rfl | hy
      · exact (charClass_matches cs [c]).mpr
          ⟨c, hall c (List.mem_cons_self c rest), rfl⟩
      · exact hmem y hy

/-- The language of `class+`: the nonempty words over the class. -/
theorem onePlus_charClass_matches (cs : List Char) (x : List Char) :
    x ∈ (onePlus (charClass cs)).matches' ↔ x ≠ [] ∧ ∀ c ∈ x, c ∈ cs := by
  constructor
  · intro hx
    rw [onePlus, RegularExpression.matches'_mul, Language.mem_mul] at hx
    obtain ⟨a, ha, b, hb, hx⟩ := hx
    obtain ⟨c, hc, rfl⟩ := (charClass_matches cs a).mp ha
    have hball := (charClass_star_matches cs b).mp hb
    subst hx
    refine ⟨by simp, ?_⟩
    intro d hd
    rcases List.mem_cons.mp hd with rfl | hd
    · exact hc
    · exact hball d hd
  · rintro ⟨hne, hall⟩
    cases x with
    | nil => exact absurd rfl hne
    | cons c rest =>
      rw [onePlus, RegularExpression.matches'_mul, Language.mem_mul]
      exact ⟨[c], (charClass_matches cs [c]).mpr
          ⟨c, hall c (List.mem_cons_self c rest), rfl⟩,
        rest, (charClass_star_matches cs rest).mpr
          (fun d hd => hall d (List.mem_cons_of_mem c hd)), rfl⟩

/-- The language of the compiled wildcard pattern: exactly a nonempty
local-part over the allowed class, then `@`, then the literal domain. -/
theorem wildcardRE_matches (d : List Char) (x : List Char) :
    x ∈ (wildcardRE d).matches' ↔
      ∃ l, x = l ++ '@' :: d ∧ l ≠ [] ∧ ∀ c ∈ l, c ∈ allowed_wildcard_chars := by
  constructor
  · intro hx
    rw [wildcardRE, RegularExpression.matches'_mul, Language.mem_mul] at hx
    obtain ⟨a, ha, b, hb, hx⟩ := hx
    rw [RegularExpression.matches'_mul, Language.mem_mul] at hb
    obtain ⟨u, hu, v, hv, hb⟩ := hb
    rw [RegularExpression.matches'_char, Set.mem_singleton_iff] at hu
    rw [literalRE_matches] at hv
    obtain ⟨hane, hall⟩ := (onePlus_charClass_matches _ a).mp ha
    subst hu; subst hv
    exact ⟨a, by rw [← hx, ← hb]; rfl, hane, hall⟩
  · rintro ⟨l, rfl, hne, hall⟩
    rw [wildcardRE, RegularExpression.matches'_mul, Language.mem_mul]
    refine ⟨l, (onePlus_charClass_matches _ l).mpr ⟨hne, hall⟩, '@' :: d, ?_, rfl⟩
    rw [RegularExpression.matches'_mul, Language.mem_mul]
    exact ⟨['@'], Set.mem_singleton _, d, (literalRE_matches d d).mpr rfl, rfl⟩

/-- Reading a key after a write list: the last write to the key wins, and an
unwritten key keeps its previous value. -/
theorem applyAll_lastVal (ws : List (String × String)) (st : Store) (k : String) :
    applyAll st ws k = (lastVal ws k).getD (st k) := by
  induction ws generalizing st with
  | nil => rfl
  | cons kv rest ih =>
    show applyAll (setOpt st kv.1 kv.2) rest k = _
    rw [ih]
    rcases h : lastVal rest k with _ | v
    · simp only [lastVal, h]
      by_cases hk : kv.1 = k
      · simp [setOpt, hk]
      · simp [setOpt, hk, show ¬(k = kv.1) from fun hh => hk hh.symm]
    · simp [lastVal, h]

/-! ### Claims -/

/-- C1, counterexample: an option supplied by an environment variable and by
the configuration file (but not the CLI) resolves to the file-supplied value,
not the environment-supplied one — `parse_config_file` runs after
`apply_env_options` and only the CLI pass is re-applied afterwards. -/
theorem C1_env_file_counterexample :
    (match resolveOptions (fun _ => "dflt") [("FLOWER_ADDRESS", "envval")]
        ["address"] [] [("address", "fileval")] true with
     | .ok st => st "address"
     | .error _ => "error") = "fileval" ∧ "fileval" ≠ "envval" :=
  ⟨by decide, by decide⟩

/-- C1 (amended): the merge obeys the fixed precedence order CLI over File
over Environment over Default — in particular an option supplied by all three
sources resolves to the CLI-supplied value, but one supplied only by an
environment variable and the configuration file resolves to the
file-supplied value. -/
theorem C1_precedence_cli_file_env (d : Store) (environ : List (String × String))
    (recognized : List String) (cli file : List (String × String))
    (k : String) (st : Store)
    (h : resolveOptions d environ recognized cli file true = .ok st) :
    st k = ((lastVal cli k).or ((lastVal file k).or
        (lastVal (env_writes environ recognized) k))).getD (d k) := by
  have he : resolveOptions d environ recognized cli file true =
      .ok (applyAll (applyAll (applyAll
        (applyAll d (env_writes environ recognized)) cli) file) cli) := rfl
  rw [he] at h
  injection h with h
  rw [← h, applyAll_lastVal, applyAll_lastVal, applyAll_lastVal, applyAll_lastVal]
  cases hcli : lastVal cli k <;> cases hfile : lastVal file k <;>
    cases henv : lastVal (env_writes environ recognized) k <;>
    simp [Option.or]

/-- Witness for the amended C1: all three sources set, CLI wins. -/
theorem C1_precedence_cli_file_env_witness :
    (match resolveOptions (fun _ => "dflt") [("FLOWER_ADDRESS", "envval")]
        ["address"] [("address", "clival")] [("address", "fileval")] true with
     | .ok st => st "address"
     | .error _ => "error") = "clival" := by
  have h := C1_precedence_cli_file_env (fun _ => "dflt")
      [("FLOWER_ADDRESS", "envval")] ["address"] [("address", "clival")]
      [("address", "fileval")] "address" _ rfl
  exact h.trans (by decide)

/-- C2, counterexample: a missing configuration file at the explicitly-named
path `mydir/flowerconfig.py` — a path that differs from the built-in default
filename and lies in a different directory — is silently ignored instead of
fatal, because the source compares only the basename of the path. -/
theorem C2_basename_counterexample :
    (apply_options (fun _ => "") [("conf", "mydir/flowerconfig.py")] [] false).isOk
        = true ∧
    "mydir/flowerconfig.py" ≠ DEFAULT_CONFIG_FILE :=
  ⟨by decide, by decide⟩

/-- C2 (amended): when the configuration file is missing, `apply_options`
raises a fatal error exactly when the *basename* of the resolved `conf`
option differs from the built-in default filename; when the basenames agree
(even for a path in a different directory) the missing file is silently
ignored and the CLI-parsed store is kept. -/
theorem C2_missing_file_basename (st : Store) (cli file : List (String × String)) :
    (basename (applyAll st cli "conf") = DEFAULT_CONFIG_FILE →
      apply_options st cli file false = .ok (applyAll st cli)) ∧
    (basename (applyAll st cli "conf") ≠ DEFAULT_CONFIG_FILE →
      apply_options st cli file false = .error ()) := by
  constructor <;> intro h <;> simp [apply_options, h]

/-- Witness for the amended C2: default-named path ignored, other path fatal. -/
theorem C2_missing_file_basename_witness :
    apply_options (fun _ => "flowerconfig.py") [] [] false =
        .ok (applyAll (fun _ => "flowerconfig.py") []) ∧
    apply_options (fun _ => "") [("conf", "other.py")] [] false = .error () :=
  ⟨(C2_missing_file_basename (fun _ => "flowerconfig.py") [] []).1 (by decide),
    (C2_missing_file_basename (fun _ => "") [("conf", "other.py")] []).2 (by decide)⟩

/-- C3: for every set `auth` string with `auth_regex` unset, `extract_settings`
raises a fatal validation error exactly when the string contains both `|` and
`.*`, or contains `.*` more than once, or contains `.*` but does not begin
with the exact three-character prefix `.*@`; a raised error means no settings
(and hence no auth rule) are produced at all. -/
theorem C3_auth_shape_errors (o : Options) (e : OAuthEnv)
    (ha : o.auth ≠ "") (hr : o.auth_regex = "") :
    (extract_settings o e).isOk = false ↔
      (('|' ∈ o.auth.data ∧ containsDotStar o.auth.data = true) ∨
        1 < countDotStar o.auth.data ∨
        (containsDotStar o.auth.data = true ∧
          o.auth.data.take 3 ≠ ['.', '*', '@'])) := by
  by_cases hp : '|' ∈ o.auth.data <;> by_cases hw : containsDotStar o.auth.data = true
  · simp [extract_settings, ha, hr, hp, hw, Except.isOk, Except.toBool]
  · have h0 := countDotStar_eq_zero o.auth.data (by simpa using hw)
    simp [extract_settings, ha, hr, hp, hw, h0, Except.isOk, Except.toBool]
  · have h1 := countDotStar_pos o.auth.data hw
    by_cases hc : countDotStar o.auth.data = 1
    · by_cases ht : o.auth.data.take 3 = ['.', '*', '@']
      · simp [extract_settings, ha, hr, hp, hw, hc, ht, Except.isOk, Except.toBool]
      · simp [extract_settings, ha, hr, hp, hw, hc, ht, Except.isOk, Except.toBool]
    · have h2 : 1 < countDotStar o.auth.data := lt_of_le_of_ne h1 (Ne.symm hc)
      simp [extract_settings, ha, hr, hp, hw, hc, h2, Except.isOk, Except.toBool]
  · have h0 := countDotStar_eq_zero o.auth.data (by simpa using hw)
    simp [extract_settings, ha, hr, hp, hw, h0, Except.isOk, Except.toBool]

/-- Witness for C3 at `auth = ".*@a.*@b"` (two wildcards): a fatal error. -/
theorem C3_auth_shape_errors_witness :
    (extract_settings { auth := ".*@a.*@b" } {}).isOk = false :=
  (C3_auth_shape_errors { auth := ".*@a.*@b" } {} (by decide) rfl).mpr (by decide)

set_option maxHeartbeats 1000000 in
/-- C4: for every `auth` of the form `.*@D` (wildcard anchored at the start,
no pipe, exactly one wildcard) with `auth_regex` unset, `extract_settings`
stores a compiled pattern, anchored at both ends, matching precisely the
words made of one or more characters of the email local-part-safe class,
then `@`, then the literal domain `D`; in particular for `D = example.com`
it matches `foo@example.com` and `foo.bar+1@example.com` and rejects
`foo@other.com` and `@example.com`. -/
theorem C4_wildcard_pattern (o : Options) (e : OAuthEnv)
    (ha : o.auth ≠ "") (hr : o.auth_regex = "")
    (hp : '|' ∉ o.auth.data)
    (hc : countDotStar o.auth.data = 1)
    (hs : o.auth.data.take 3 = ['.', '*', '@']) :
    extract_settings o e =
      .ok { debug := o.debug
            cookie_secret := if o.cookie_secret ≠ "" then some o.cookie_secret else none
            auth_regex := some (.wildcard (wildcardRE (o.auth.data.drop 3)))
            auth_email_list := none
            oauth := some (mkOAuth o e) } ∧
    (∀ x : List Char, x ∈ (wildcardRE (o.auth.data.drop 3)).matches' ↔
        ∃ l, x = l ++ '@' :: o.auth.data.drop 3 ∧ l ≠ [] ∧
          ∀ c ∈ l, c ∈ allowed_wildcard_chars) ∧
    "foo@example.com".data ∈ (wildcardRE "example.com".data).matches' ∧
    "foo.bar+1@example.com".data ∈ (wildcardRE "example.com".data).matches' ∧
    "foo@other.com".data ∉ (wildcardRE "example.com".data).matches' ∧
    "@example.com".data ∉ (wildcardRE "example.com".data).matches' := by
  have hw : containsDotStar o.auth.data = true :=
    containsDotStar_of_count o.auth.data (by omega)
  refine ⟨by simp [extract_settings, ha, hr, hp, hw, hc, hs],
    fun x => wildcardRE_matches _ x, ?_, ?_, by decide, by decide⟩
  · exact (wildcardRE_matches _ _).mpr ⟨"foo".data, by decide, by decide, by decide⟩
  · exact (wildcardRE_matches _ _).mpr ⟨"foo.bar+1".data, by decide, by decide, by decide⟩

/-- Witness for C4 at `auth = ".*@example.com"`. -/
theorem C4_wildcard_pattern_witness :
    extract_settings { auth := ".*@example.com" } {} =
      .ok { auth_regex := some (.wildcard (wildcardRE "example.com".data))
            oauth := some { key := none, secret := none, redirect_uri := none } } ∧
    "foo@example.com".data ∈ (wildcardRE "example.com".data).matches' := by
  have h := C4_wildcard_pattern { auth := ".*@example.com" } {}
      (by decide) rfl (by decide) (by decide) (by decide)
  exact ⟨h.1, h.2.2.1⟩

/-- C5: for every set `auth` string that contains no `.*` and with `auth_regex`
unset, `extract_settings` stores an email list equal to the string split on
`|`; a string containing `|` yields the list of identities between the pipes,
and a string without `|` yields a list of exactly one literal identity. -/
theorem C5_email_list_split (o : Options) (e : OAuthEnv)
    (ha : o.auth ≠ "") (hr : o.auth_regex = "")
    (hw : containsDotStar o.auth.data = false) :
    extract_settings o e =
      .ok { debug := o.debug
            cookie_secret := if o.cookie_secret ≠ "" then some o.cookie_secret else none
            auth_regex := none
            auth_email_list := some (splitOnChar '|' o.auth.data)
            oauth := some (mkOAuth o e) } ∧
    ('|' ∉ o.auth.data → splitOnChar '|' o.auth.data = [o.auth.data]) := by
  refine ⟨?_, fun hp => splitOnChar_no_sep '|' o.auth.data hp⟩
  by_cases hp : '|' ∈ o.auth.data
  · simp [extract_settings, ha, hr, hp, hw]
  · simp [extract_settings, ha, hr, hp, hw, splitOnChar_no_sep '|' o.auth.data hp]

/-- Witness for C5 at `auth = "a@x.com|b@x.com"`. -/
theorem C5_email_list_split_witness :
    extract_settings { auth := "a@x.com|b@x.com" } {} =
      .ok { auth_email_list := some ["a@x.com".data, "b@x.com".data]
            oauth := some { key := none, secret := none, redirect_uri := none } } := by
  have h := (C5_email_list_split { auth := "a@x.com|b@x.com" } {}
      (by decide) rfl (by decide)).1
  rw [h]
  rfl

/-- C6: whenever `auth` is set and `auth_regex` is also set, `extract_settings`
compiles `auth_regex` verbatim as the pattern rule, performs no shape check on
`auth`, and raises no error regardless of the content of `auth`. -/
theorem C6_auth_regex_verbatim (o : Options) (e : OAuthEnv)
    (ha : o.auth ≠ "") (hr : o.auth_regex ≠ "") :
    extract_settings o e =
      .ok { debug := o.debug
            cookie_secret := if o.cookie_secret ≠ "" then some o.cookie_secret else none
            auth_regex := some (.userRegex o.auth_regex)
            auth_email_list := none
            oauth := some (mkOAuth o e) } := by
  simp [extract_settings, ha, hr]

/-- Witness for C6: an `auth` value that would fail every shape check (it has
a pipe and an unanchored wildcard) raises nothing once `auth_regex` is set. -/
theorem C6_auth_regex_verbatim_witness :
    extract_settings { auth := "anything.*|weird", auth_regex := "admin@corp" } {} =
      .ok { auth_regex := some (.userRegex "admin@corp")
            oauth := some { key := none, secret := none, redirect_uri := none } } :=
  C6_auth_regex_verbatim { auth := "anything.*|weird", auth_regex := "admin@corp" } {}
    (by decide) (by decide)

/-- C7: whenever `auth` is unset, `extract_settings` produces no auth rule at
all — no email list, no compiled pattern and no OAuth triple — even when
`auth_regex` is set. -/
theorem C7_auth_unset_no_rule (o : Options) (e : OAuthEnv) (ha : o.auth = "") :
    extract_settings o e =
      .ok { debug := o.debug
            cookie_secret := if o.cookie_secret ≠ "" then some o.cookie_secret else none
            auth_regex := none
            auth_email_list := none
            oauth := none } := by
  simp [extract_settings, ha]

/-- Witness for C7 with `auth_regex` set and an OAuth environment variable
present: nothing is stored. -/
theorem C7_auth_unset_no_rule_witness :
    extract_settings { auth_regex := ".*" } { flower_oauth2_key := some "k" } =
      .ok { } :=
  C7_auth_unset_no_rule { auth_regex := ".*" } { flower_oauth2_key := some "k" } rfl

/-- C8: whenever `extract_settings` completes without error, at most one of the
two auth-rule variants is stored: the settings never simultaneously contain an
email allow-list and a compiled pattern (one of the two keys is absent). -/
theorem C8_rule_exclusive (o : Options) (e : OAuthEnv) (s : Settings)
    (h : extract_settings o e = .ok s) :
    s.auth_email_list = none ∨ s.auth_regex = none := by
  by_cases ha : o.auth = "" <;>
    by_cases hr : o.auth_regex = "" <;>
    by_cases hp : '|' ∈ o.auth.data <;>
    by_cases hw : containsDotStar o.auth.data = true <;>
    by_cases hc : countDotStar o.auth.data = 1 <;>
    by_cases ht : o.auth.data.take 3 = ['.', '*', '@'] <;>
    simp [extract_settings, ha, hr, hp, hw, hc, ht] at h <;>
    subst h <;> simp

/-- Witness for C8 at `auth = ".*@example.com"`, which stores a pattern. -/
theorem C8_rule_exclusive_witness :
    (match extract_settings { auth := ".*@example.com" } {} with
     | .ok s => s.auth_email_list = none ∨ s.auth_regex = none
     | .error _ => False) :=
  C8_rule_exclusive { auth := ".*@example.com" } {} _ rfl

/-- C9: whenever `auth` is set and `extract_settings` completes without error,
an OAuth credential triple is stored whose fields take the explicit option
values when non-empty and otherwise fall back to the `FLOWER_OAUTH2_KEY`,
`FLOWER_OAUTH2_SECRET` and `FLOWER_OAUTH2_REDIRECT_URI` environment variables
passed to `extract_settings` at assembly time. -/
theorem C9_oauth_triple (o : Options) (e : OAuthEnv) (s : Settings)
    (ha : o.auth ≠ "") (h : extract_settings o e = .ok s) :
    s.oauth = some
      { key := if o.oauth2_key ≠ "" then some o.oauth2_key
               else e.flower_oauth2_key
        secret := if o.oauth2_secret ≠ "" then some o.oauth2_secret
                  else e.flower_oauth2_secret
        redirect_uri := if o.oauth2_redirect_uri ≠ "" then some o.oauth2_redirect_uri
                        else e.flower_oauth2_redirect_uri } :=
  extract_settings_oauth o e s ha h

/-- Witness for C9: an explicit key, an environment secret, no redirect URI. -/
theorem C9_oauth_triple_witness :
    (match extract_settings { auth := "me@x.com", oauth2_key := "K" }
        { flower_oauth2_secret := some "S" } with
     | .ok s => s.oauth = some { key := some "K", secret := some "S", redirect_uri := none }
     | .error _ => False) := by
  have h := C9_oauth_triple { auth := "me@x.com", oauth2_key := "K" }
      { flower_oauth2_secret := some "S" } _ (by decide) rfl
  exact h.trans (by decide)

/-- C10: when `auth` is set, `extract_settings` succeeds and an OAuth option is
the empty string, the corresponding field of the stored triple takes the
environment variable's value: an explicitly empty option value is
indistinguishable from an unset one in the fallback. -/
theorem C10_empty_oauth_option_falls_back (o : Options) (e : OAuthEnv)
    (s : Settings) (ha : o.auth ≠ "") (h : extract_settings o e = .ok s) :
    (o.oauth2_key = "" → s.oauth.map OAuthSettings.key = some e.flower_oauth2_key) ∧
    (o.oauth2_secret = "" → s.oauth.map OAuthSettings.secret = some e.flower_oauth2_secret) ∧
    (o.oauth2_redirect_uri = "" →
      s.oauth.map OAuthSettings.redirect_uri = some e.flower_oauth2_redirect_uri) := by
  have ho := extract_settings_oauth o e s ha h
  rw [ho]
  exact ⟨fun hk => by simp [mkOAuth, hk], fun hk => by simp [mkOAuth, hk],
    fun hk => by simp [mkOAuth, hk]⟩

/-- Witness for C10: `oauth2_key` explicitly empty, environment key present. -/
theorem C10_empty_oauth_option_falls_back_witness :
    (match extract_settings { auth := "me@x.com", oauth2_key := "" }
        { flower_oauth2_key := some "ENVK" } with
     | .ok s => s.oauth.map OAuthSettings.key = some (some "ENVK")
     | .error _ => False) := by
  have h := (C10_empty_oauth_option_falls_back { auth := "me@x.com", oauth2_key := "" }
      { flower_oauth2_key := some "ENVK" } _ (by decide) rfl).1 rfl
  exact h

end Flower
